import Mathlib

/-!
Verification of the sosia core against its specification.

This file gives a shallow embedding of the core of the sosia repository:

* sosia/utils/queries.py : the functions stacked_query and query;
* sosia/establishing/database.py : the function create_cache;
* the key partitioner of sosia/cache, whose implementation is absent from
  the sources at hand and is therefore modelled from the specification.

The external Scopus service is modelled as an oracle function supplied as a
parameter.  Machine-level details (network transport, sqlite files,
pandas dataframes) are abstracted into explicit functional state.
-/

namespace Sosia

/-! ## Substring machinery

Python's membership test on strings, needle in hay, is a substring test.
We implement it over the character lists underlying Lean strings.
-/

/-- Decides whether the first character list is a prefix of the second. -/
def leadsWith : List Char → List Char → Bool
  | [], _ => true
  | _ :: _, [] => false
  | a :: as, b :: bs => a == b && leadsWith as bs

/-- Decides whether the needle occurs as a contiguous substring of the hay. -/
def occursIn (needle : List Char) : List Char → Bool
  | [] => leadsWith needle []
  | c :: rest => leadsWith needle (c :: rest) || occursIn needle rest

/-- Python expression needle in hay, for strings. -/
def strContains (hay needle : String) : Bool :=
  occursIn needle.data hay.data

theorem leadsWith_append {n h : List Char} (t : List Char)
    (H : leadsWith n h = true) : leadsWith n (h ++ t) = true := by
  induction n generalizing h with
  | nil => simp [leadsWith]
  | cons a as ih =>
    cases h with
    | nil => simp [leadsWith] at H
    | cons b bs =>
      simp only [leadsWith, Bool.and_eq_true] at H
      simp only [List.cons_append, leadsWith, Bool.and_eq_true]
      exact ⟨H.1, ih H.2⟩

theorem occursIn_nil_needle (h : List Char) : occursIn [] h = true := by
  cases h <;> simp [occursIn, leadsWith]

theorem occursIn_append_right {n b : List Char} (a : List Char)
    (H : occursIn n b = true) : occursIn n (a ++ b) = true := by
  induction a with
  | nil => simpa using H
  | cons c cs ih =>
    simp only [List.cons_append, occursIn, Bool.or_eq_true]
    exact Or.inr ih

theorem occursIn_append_left {n a : List Char} (b : List Char)
    (H : occursIn n a = true) : occursIn n (a ++ b) = true := by
  induction a with
  | nil =>
    have hn : n = [] := by
      cases n with
      | nil => rfl
      | cons x xs => simp [occursIn, leadsWith] at H
    subst hn
    simpa using occursIn_nil_needle b
  | cons c cs ih =>
    simp only [occursIn, Bool.or_eq_true] at H
    simp only [List.cons_append, occursIn, Bool.or_eq_true]
    cases H with
    | inl h => exact Or.inl (by simpa using leadsWith_append b h)
    | inr h => exact Or.inr (ih h)

theorem strContains_append_left {s m : String} (t : String)
    (H : strContains s m = true) : strContains (s ++ t) m = true := by
  unfold strContains at H ⊢
  rw [String.data_append]
  exact occursIn_append_left _ H

theorem strContains_append_right {t m : String} (s : String)
    (H : strContains t m = true) : strContains (s ++ t) m = true := by
  unfold strContains at H ⊢
  rw [String.data_append]
  exact occursIn_append_right _ H

/-! ## Data model for the batch query executor (sosia/utils/queries.py)

stacked_query receives group elements that may be strings or ints and
normalizes each with str().  A string.Template with a single fill slot is
modelled by its text before and after the slot.
-/

/-- A group element passed to stacked_query: a string or an int
(the docstring allows both; the body applies str() to each). -/
inductive Ident where
  | str (s : String)
  | int (n : Int)
deriving DecidableEq

/-- Python str() applied to a group element. -/
def Ident.toStr : Ident → String
  | .str s => s
  | .int n => toString n

/-- A string.Template with exactly one fill slot, given by the text before
and after the slot.  substitute(fill=x) yields pre ++ x ++ post. -/
structure Tmpl where
  pre : String
  post : String
deriving DecidableEq

/-- Template substitution of the single fill slot. -/
def Tmpl.subst (t : Tmpl) (fill : String) : String :=
  t.pre ++ fill ++ t.post

/-- The three exception classes caught by the except clause of
stacked_query: Scopus400Error, ScopusQueryError and Scopus500Error. -/
inductive ScopusErr where
  | badRequest
  | queryError
  | serverError
deriving DecidableEq

/-- Observable outcome of one stacked_query call.

In Python the accumulator res is a list object shared by mutation
(res.extend) between all recursive calls: the params dict passes the same
object to the second half of every split, regardless of what the first
half returned.  We therefore record separately

* ret  : the first component of the Python return statement, which is
         None in the give-up branch and otherwise the shared list;
* acc  : the contents of the shared accumulator list after the call;
* i    : the returned running progress counter;
* prog : the sequence of print_progress(i, total) calls emitted. -/
structure SQRes (R : Type) where
  ret : Option (List R)
  acc : List R
  i : Nat
  prog : List (Nat × Nat)
deriving DecidableEq

/-- Python truthiness of the optional total argument: None and 0 are
falsy, any other number is truthy. -/
def truthy : Option Nat → Bool
  | none => false
  | some t => t != 0

/-- The list built by stacked_query's fallback tier, Python
expression a star prepended to str(n) for n in range(0, 10). -/
def groupeids : List String :=
  (List.range 10).map (fun n => "*" ++ toString n)

/-- Sequencing of the two recursive sub-calls of a split: the first call
runs, the second receives the shared accumulator and counter produced by
the first, and the level returns the second call's return value while the
progress output concatenates.  A none models running out of fuel. -/
def sqSeq {R : Type} (first : Option (SQRes R))
    (second : SQRes R → Option (SQRes R)) : Option (SQRes R) :=
  match first with
  | none => none
  | some r1 =>
    match second r1 with
    | none => none
    | some r2 => some ⟨r2.ret, r2.acc, r2.i, r1.prog ++ r2.prog⟩

/-- Shallow embedding of stacked_query (sosia/utils/queries.py, lines
176 to 250).  The external call run(func, q, refresh) is abstracted into
the oracle argument named run; its refresh flag is folded into the oracle
since stacked_query merely threads it through unchanged.  A fuel argument
makes the general recursion structural; none means the fuel ran out and
never arises for sufficient fuel, as proved below.

Faithfulness notes: the body first normalizes every group element with
str(); the recursive calls receive lists of strings, on which the repeated
normalization is the identity, so the sub-groups are re-wrapped with
Ident.str.  The branch structure mirrors the source: on success extend
the accumulator and, if total is truthy, advance the counter by the group
size and print progress; on a caught Scopus error either bisect a group
of more than one element at its half length, or, for a query that does
not yet contain the text AND EID followed by an opening bracket, split
over the ten synthetic suffix tokens with joiner OR and a null total, or
otherwise give up returning None and the unchanged counter. -/
def stacked_query {R : Type} (run : String → Except ScopusErr (List R)) :
    Nat → List Ident → List R → Tmpl → String → Nat → Option Nat →
    Option (SQRes R)
  | 0, _, _, _, _, _, _ => none
  | fuel + 1, group0, res, query, joiner, i, total =>
    let group := group0.map Ident.toStr
    let q := query.subst (String.intercalate joiner group)
    match run q with
    | .ok new =>
      if truthy total then
        some ⟨some (res ++ new), res ++ new, i + group.length,
              [(i + group.length, total.getD 0)]⟩
      else
        some ⟨some (res ++ new), res ++ new, i, []⟩
    | .error _ =>
      if 1 < group.length then
        let mid := group.length / 2
        sqSeq (stacked_query run fuel ((group.take mid).map .str) res
                query joiner i total)
          (fun r1 => stacked_query run fuel ((group.drop mid).map .str)
                r1.acc query joiner r1.i total)
      else if strContains q "AND EID(" = false then
        let q2 : Tmpl := ⟨q ++ " AND EID(", ")"⟩
        let mid := groupeids.length / 2
        sqSeq (stacked_query run fuel ((groupeids.take mid).map .str) res
                q2 " OR " i none)
          (fun r1 => stacked_query run fuel ((groupeids.drop mid).map .str)
                r1.acc q2 " OR " r1.i none)
      else
        some ⟨none, res, i, []⟩

/-! ## Claims about stacked_query -/

/-- C1: for every call to stacked_query whose adapter call fails with
QueryTooComplexError (ScopusQueryError) or ServiceUnavailableError
(Scopus500Error) and whose group has more than one identifier, the group
is bisected at its midpoint (floor of half the length) and the two halves
are processed recursively in sequence, first half then second half, with
the accumulator and progress counter returned by the first half passed as
inputs to the second half. -/
theorem C1_bisect_on_failure {R : Type}
    (run : String → Except ScopusErr (List R)) (fuel : Nat)
    (group0 : List Ident) (res : List R) (query : Tmpl) (joiner : String)
    (i : Nat) (total : Option Nat) (e : ScopusErr)
    (hfail : run (query.subst (String.intercalate joiner
      (group0.map Ident.toStr))) = .error e)
    (he : e = .queryError ∨ e = .serverError)
    (hlen : 1 < group0.length) :
    stacked_query run (fuel + 1) group0 res query joiner i total =
      sqSeq (stacked_query run fuel
              (((group0.map Ident.toStr).take (group0.length / 2)).map
                Ident.str) res query joiner i total)
        (fun r1 => stacked_query run fuel
              (((group0.map Ident.toStr).drop (group0.length / 2)).map
                Ident.str) r1.acc query joiner r1.i total) := by
  simp only [stacked_query, hfail, List.length_map, if_pos hlen]

/-- Witness for C1 at a concrete failing oracle and a two-element group. -/
theorem C1_bisect_on_failure_witness :
    stacked_query
        (fun _ => (Except.error ScopusErr.queryError :
          Except ScopusErr (List Nat))) 3
        [Ident.int 1, Ident.int 2] [] ⟨"AU-ID(", ")"⟩ " OR " 0 none =
      sqSeq (stacked_query
              (fun _ => (Except.error ScopusErr.queryError :
                Except ScopusErr (List Nat))) 2
              [Ident.str "1"] [] ⟨"AU-ID(", ")"⟩ " OR " 0 none)
        (fun r1 => stacked_query
              (fun _ => (Except.error ScopusErr.queryError :
                Except ScopusErr (List Nat))) 2
              [Ident.str "2"] r1.acc ⟨"AU-ID(", ")"⟩ " OR " r1.i none) := by
  have h := C1_bisect_on_failure
    (fun _ => (Except.error ScopusErr.queryError :
      Except ScopusErr (List Nat))) 2
    [Ident.int 1, Ident.int 2] [] ⟨"AU-ID(", ")"⟩ " OR " 0 none
    ScopusErr.queryError rfl (Or.inl rfl) (by decide)
  simpa using h

/-- C2: for every call to stacked_query whose adapter call fails, whose
group has exactly one identifier, and whose built query string does not
already contain the fallback marker AND EID followed by an opening
bracket, the executor appends an identifier-scoping clause to the query
template and recursively splits across exactly ten synthetic suffix
tokens star-0 through star-9, five then five, each sub-call using the
joiner consisting of OR between blanks and a null total; and the fallback
is never entered a second time for a query string already containing the
scoping clause: there the call gives up instead of recursing. -/
theorem C2_fallback_partitioning {R : Type}
    (run : String → Except ScopusErr (List R)) (fuel : Nat)
    (group0 : List Ident) (res : List R) (query : Tmpl) (joiner : String)
    (i : Nat) (total : Option Nat) (e : ScopusErr)
    (hfail : run (query.subst (String.intercalate joiner
      (group0.map Ident.toStr))) = .error e)
    (hone : group0.length = 1) :
    (strContains (query.subst (String.intercalate joiner
        (group0.map Ident.toStr))) "AND EID(" = false →
      stacked_query run (fuel + 1) group0 res query joiner i total =
        sqSeq (stacked_query run fuel
                [Ident.str "*0", Ident.str "*1", Ident.str "*2",
                 Ident.str "*3", Ident.str "*4"] res
                ⟨query.subst (String.intercalate joiner
                  (group0.map Ident.toStr)) ++ " AND EID(", ")"⟩
                " OR " i none)
          (fun r1 => stacked_query run fuel
                [Ident.str "*5", Ident.str "*6", Ident.str "*7",
                 Ident.str "*8", Ident.str "*9"] r1.acc
                ⟨query.subst (String.intercalate joiner
                  (group0.map Ident.toStr)) ++ " AND EID(", ")"⟩
                " OR " r1.i none))
    ∧ (strContains (query.subst (String.intercalate joiner
        (group0.map Ident.toStr))) "AND EID(" = true →
      stacked_query run (fuel + 1) group0 res query joiner i total =
        some ⟨none, res, i, []⟩) := by
  have hfive : (groupeids.take (groupeids.length / 2)).map Ident.str =
      [Ident.str "*0", Ident.str "*1", Ident.str "*2",
       Ident.str "*3", Ident.str "*4"] := by rfl
  have hfive2 : (groupeids.drop (groupeids.length / 2)).map Ident.str =
      [Ident.str "*5", Ident.str "*6", Ident.str "*7",
       Ident.str "*8", Ident.str "*9"] := by rfl
  have hnotlt : ¬ (1 < group0.length) := by omega
  constructor
  · intro hmark
    simp only [stacked_query, hfail, List.length_map, if_neg hnotlt,
      hmark, hfive, hfive2]
    simp
  · intro hmark
    simp only [stacked_query, hfail, List.length_map, if_neg hnotlt,
      hmark]
    simp

/-- Witness for C2 at a concrete failing oracle and singleton group whose
query lacks the marker. -/
theorem C2_fallback_partitioning_witness :
    (strContains (Tmpl.subst ⟨"AU-ID(", ")"⟩ (String.intercalate " OR "
        ([Ident.int 5].map Ident.toStr))) "AND EID(" = false ∧
      stacked_query
        (fun _ => (Except.error ScopusErr.serverError :
          Except ScopusErr (List Nat))) (1 + 1)
        [Ident.int 5] [] ⟨"AU-ID(", ")"⟩ " OR " 0 (some 1) =
        sqSeq (stacked_query
                (fun _ => (Except.error ScopusErr.serverError :
                  Except ScopusErr (List Nat))) 1
                [Ident.str "*0", Ident.str "*1", Ident.str "*2",
                 Ident.str "*3", Ident.str "*4"] []
                ⟨Tmpl.subst ⟨"AU-ID(", ")"⟩ (String.intercalate " OR "
                  ([Ident.int 5].map Ident.toStr)) ++ " AND EID(", ")"⟩
                " OR " 0 none)
          (fun r1 => stacked_query
                (fun _ => (Except.error ScopusErr.serverError :
                  Except ScopusErr (List Nat))) 1
                [Ident.str "*5", Ident.str "*6", Ident.str "*7",
                 Ident.str "*8", Ident.str "*9"] r1.acc
                ⟨Tmpl.subst ⟨"AU-ID(", ")"⟩ (String.intercalate " OR "
                  ([Ident.int 5].map Ident.toStr)) ++ " AND EID(", ")"⟩
                " OR " r1.i none)) := by
  refine ⟨by decide, ?_⟩
  exact (C2_fallback_partitioning
    (fun _ => (Except.error ScopusErr.serverError :
      Except ScopusErr (List Nat))) 1
    [Ident.int 5] [] ⟨"AU-ID(", ")"⟩ " OR " 0 (some 1)
    ScopusErr.serverError rfl rfl).1 (by decide)

/-- C3: evaluation of the code at the failing input.  When the adapter
call fails while the fallback marker is already present in the built query
string, the source executes the statement returning None together with
the progress counter (queries.py line 249): the first returned component
is None, not the accumulated result list, although the shared accumulator
object and the counter are indeed left unchanged and no exception
escapes.  The claim (and the function's own docstring, which promises a
list of namedtuples) says the accumulated result list is returned; the
second conjunct records that the accumulator [99] is not what the call
returns. -/
theorem C3_giveup_returns_none :
    (stacked_query
        (fun _ => (Except.error ScopusErr.serverError :
          Except ScopusErr (List Nat))) 1
        [Ident.str "1"] [99] ⟨"SOURCE-ID(1) AND EID(", ")"⟩ "" 4 none =
      some ⟨none, [99], 4, []⟩) ∧
    (some ⟨none, [99], 4, []⟩ : Option (SQRes Nat)) ≠
      some ⟨some [99], [99], 4, []⟩ := by
  exact ⟨by decide, by decide⟩

/-- C9 (amended): for every call to stacked_query whose adapter call
succeeds, every identifier in the group is first normalized to its string
form, the returned results are appended to the accumulator, and if a
truthy (non-null and nonzero) total was supplied the progress counter is
advanced by exactly the group size and progress is reported once at the
new counter value; with a null or zero total the counter is unchanged and
no progress is reported. -/
theorem C9_success_behaviour {R : Type}
    (run : String → Except ScopusErr (List R)) (fuel : Nat)
    (group0 : List Ident) (res : List R) (query : Tmpl) (joiner : String)
    (i : Nat) (total : Option Nat) (new : List R)
    (hok : run (query.subst (String.intercalate joiner
      (group0.map Ident.toStr))) = .ok new) :
    stacked_query run (fuel + 1) group0 res query joiner i total =
      some ⟨some (res ++ new), res ++ new,
        if truthy total then i + group0.length else i,
        if truthy total then [(i + group0.length, total.getD 0)]
        else []⟩ := by
  simp only [stacked_query, hok, List.length_map]
  cases htr : truthy total <;> simp [htr]

/-- Witness for C9 at a succeeding oracle, a mixed int and string group
and a truthy total. -/
theorem C9_success_behaviour_witness :
    stacked_query
        (fun _ => (Except.ok [42] : Except ScopusErr (List Nat))) 3
        [Ident.int 7, Ident.str "8"] [1] ⟨"AU-ID(", ")"⟩ " OR " 3
        (some 10) =
      some ⟨some [1, 42], [1, 42], 5, [(5, 10)]⟩ := by
  have h := C9_success_behaviour
    (fun _ => (Except.ok [42] : Except ScopusErr (List Nat))) 2
    [Ident.int 7, Ident.str "8"] [1] ⟨"AU-ID(", ")"⟩ " OR " 3
    (some 10) [42] rfl
  simpa using h

/-- Counterexample to C9 as stated: the total some 0 is supplied, the
adapter call succeeds with a singleton group, yet the progress counter is
not advanced by the group size (it stays 0 instead of becoming 1) and no
progress is reported, because Python tests the total for truthiness and
0 is falsy. -/
theorem C9_counterexample_zero_total :
    stacked_query
        (fun _ => (Except.ok [42] : Except ScopusErr (List Nat))) 1
        [Ident.int 7] [] ⟨"AU-ID(", ")"⟩ "" 0 (some 0) =
      some ⟨some [42], [42], 0, []⟩ ∧ (0 : Nat) ≠ 0 + 1 := by
  exact ⟨by decide, by decide⟩

/-- Once the template's leading text contains the fallback marker, the
recursion only ever bisects or gives up, so fuel one more than the group
size suffices. -/
theorem sq_marked_isSome {R : Type}
    (run : String → Except ScopusErr (List R)) :
    ∀ (fuel : Nat) (group0 : List Ident) (res : List R) (query : Tmpl)
      (joiner : String) (i : Nat) (total : Option Nat),
      strContains query.pre "AND EID(" = true →
      group0.length + 1 ≤ fuel →
      (stacked_query run fuel group0 res query joiner i total).isSome := by
  intro fuel
  induction fuel with
  | zero =>
    intro group0 res query joiner i total hpre hle
    omega
  | succ f ih =>
    intro group0 res query joiner i total hpre hle
    simp only [stacked_query]
    cases hrun : run (query.subst (String.intercalate joiner
        (group0.map Ident.toStr))) with
    | ok new => cases truthy total <;> simp
    | error e =>
      simp only [List.length_map]
      by_cases hlen : 1 < group0.length
      · rw [if_pos hlen]
        have h1 := ih (((group0.map Ident.toStr).take
            (group0.length / 2)).map Ident.str) res query joiner i total
            hpre (by simp [List.length_map, List.length_take]; omega)
        obtain ⟨r1, hr1⟩ := Option.isSome_iff_exists.mp h1
        have h2 := ih (((group0.map Ident.toStr).drop
            (group0.length / 2)).map Ident.str) r1.acc query joiner
            r1.i total hpre
            (by simp [List.length_map, List.length_drop]; omega)
        obtain ⟨r2, hr2⟩ := Option.isSome_iff_exists.mp h2
        simp only [List.map_take, List.map_drop, List.map_map] at hr1 hr2
        simp [sqSeq, hr1, hr2, List.map_take, List.map_drop, List.map_map]
      · rw [if_neg hlen]
        have hq : strContains (query.subst (String.intercalate joiner
            (group0.map Ident.toStr))) "AND EID(" = true := by
          unfold Tmpl.subst
          exact strContains_append_left _ (strContains_append_left _ hpre)
        simp [hq]

/-- Fuel seven more than the group size always suffices: a failing leaf
enters the fallback at most once, with ten marked suffix tokens split
five and five, which then only bisect. -/
theorem sq_isSome {R : Type}
    (run : String → Except ScopusErr (List R)) :
    ∀ (fuel : Nat) (group0 : List Ident) (res : List R) (query : Tmpl)
      (joiner : String) (i : Nat) (total : Option Nat),
      group0.length + 7 ≤ fuel →
      (stacked_query run fuel group0 res query joiner i total).isSome := by
  intro fuel
  induction fuel with
  | zero =>
    intro group0 res query joiner i total hle
    omega
  | succ f ih =>
    intro group0 res query joiner i total hle
    simp only [stacked_query]
    cases hrun : run (query.subst (String.intercalate joiner
        (group0.map Ident.toStr))) with
    | ok new => cases truthy total <;> simp
    | error e =>
      simp only [List.length_map]
      by_cases hlen : 1 < group0.length
      · rw [if_pos hlen]
        have h1 := ih (((group0.map Ident.toStr).take
            (group0.length / 2)).map Ident.str) res query joiner i total
            (by simp [List.length_map, List.length_take]; omega)
        obtain ⟨r1, hr1⟩ := Option.isSome_iff_exists.mp h1
        have h2 := ih (((group0.map Ident.toStr).drop
            (group0.length / 2)).map Ident.str) r1.acc query joiner
            r1.i total
            (by simp [List.length_map, List.length_drop]; omega)
        obtain ⟨r2, hr2⟩ := Option.isSome_iff_exists.mp h2
        simp only [List.map_take, List.map_drop, List.map_map] at hr1 hr2
        simp [sqSeq, hr1, hr2, List.map_take, List.map_drop, List.map_map]
      · rw [if_neg hlen]
        by_cases hmark : strContains (query.subst (String.intercalate
            joiner (group0.map Ident.toStr))) "AND EID(" = false
        · rw [if_pos hmark]
          have hpre : strContains (query.subst (String.intercalate
              joiner (group0.map Ident.toStr)) ++ " AND EID(")
              "AND EID(" = true :=
            strContains_append_right _ (by decide)
          have hlen5 : ((groupeids.take (groupeids.length / 2)).map
              Ident.str).length = 5 := by rfl
          have hlen5b : ((groupeids.drop (groupeids.length / 2)).map
              Ident.str).length = 5 := by rfl
          have h1 := sq_marked_isSome run f
            ((groupeids.take (groupeids.length / 2)).map Ident.str) res
            ⟨query.subst (String.intercalate joiner
              (group0.map Ident.toStr)) ++ " AND EID(", ")"⟩
            " OR " i none hpre (by rw [hlen5]; omega)
          obtain ⟨r1, hr1⟩ := Option.isSome_iff_exists.mp h1
          have h2 := sq_marked_isSome run f
            ((groupeids.drop (groupeids.length / 2)).map Ident.str)
            r1.acc
            ⟨query.subst (String.intercalate joiner
              (group0.map Ident.toStr)) ++ " AND EID(", ")"⟩
            " OR " r1.i none hpre (by rw [hlen5b]; omega)
          obtain ⟨r2, hr2⟩ := Option.isSome_iff_exists.mp h2
          simp only [List.map_take, List.map_drop, List.map_map] at hr1 hr2
          simp [sqSeq, hr1, hr2, List.map_take, List.map_drop, List.map_map]
        · rw [if_neg hmark]
          simp

/-- C4: stacked_query terminates on every input.  With a fuel budget of
seven more than the group size the recursion always completes: every
branch either strictly shrinks the group or makes the one-time transition
to the marked fallback tier of ten suffix tokens, which then only shrinks
by halving. -/
theorem C4_termination {R : Type}
    (run : String → Except ScopusErr (List R)) (group0 : List Ident)
    (res : List R) (query : Tmpl) (joiner : String) (i : Nat)
    (total : Option Nat) :
    (stacked_query run (group0.length + 7) group0 res query joiner i
      total).isSome = true :=
  sq_isSome run (group0.length + 7) group0 res query joiner i total
    (Nat.le_refl _)

/-- C10: for every call to stacked_query that returns normally, the
returned progress counter is at least the counter passed in, and when the
total is not truthy (in particular inside the fallback tier, which always
runs with a null total) the counter comes back exactly unchanged, so the
counter strictly increases only on a successful adapter call made with a
truthy total. -/
theorem C10_counter_monotone {R : Type}
    (run : String → Except ScopusErr (List R)) :
    ∀ (fuel : Nat) (group0 : List Ident) (res : List R) (query : Tmpl)
      (joiner : String) (i : Nat) (total : Option Nat) (r : SQRes R),
      stacked_query run fuel group0 res query joiner i total = some r →
      i ≤ r.i ∧ (truthy total = false → r.i = i) := by
  intro fuel
  induction fuel with
  | zero =>
    intro group0 res query joiner i total r h
    simp [stacked_query] at h
  | succ f ih =>
    intro group0 res query joiner i total r h
    simp only [stacked_query] at h
    cases hrun : run (query.subst (String.intercalate joiner
        (group0.map Ident.toStr))) with
    | ok new =>
      rw [hrun] at h
      simp only [] at h
      cases htr : truthy total with
      | true =>
        rw [htr, if_pos rfl] at h
        obtain rfl := (Option.some.inj h).symm
        refine ⟨Nat.le_add_right _ _, fun hh => ?_⟩
        simp [htr] at hh
      | false =>
        rw [htr] at h
        simp only [Bool.false_eq_true, if_false] at h
        obtain rfl := (Option.some.inj h).symm
        exact ⟨Nat.le_refl _, fun _ => rfl⟩
    | error e =>
      rw [hrun] at h
      simp only [] at h
      by_cases hlen : 1 < (group0.map Ident.toStr).length
      · rw [if_pos hlen] at h
        unfold sqSeq at h
        cases h1 : stacked_query run f (((group0.map Ident.toStr).take
            ((group0.map Ident.toStr).length / 2)).map Ident.str) res
            query joiner i total with
        | none => rw [h1] at h; cases h
        | some r1 =>
          rw [h1] at h
          simp only [] at h
          cases h2 : stacked_query run f (((group0.map
              Ident.toStr).drop ((group0.map Ident.toStr).length /
              2)).map Ident.str) r1.acc query joiner r1.i total with
          | none => rw [h2] at h; cases h
          | some r2 =>
            rw [h2] at h
            simp only [] at h
            obtain rfl := (Option.some.inj h).symm
            obtain ⟨ha1, hb1⟩ := ih _ _ _ _ _ _ _ h1
            obtain ⟨ha2, hb2⟩ := ih _ _ _ _ _ _ _ h2
            exact ⟨Nat.le_trans ha1 ha2, fun hh =>
              (hb2 hh).trans (hb1 hh)⟩
      · rw [if_neg hlen] at h
        by_cases hmark : strContains (query.subst (String.intercalate
            joiner (group0.map Ident.toStr))) "AND EID(" = false
        · rw [if_pos hmark] at h
          unfold sqSeq at h
          cases h1 : stacked_query run f ((groupeids.take
              (groupeids.length / 2)).map Ident.str) res
              ⟨query.subst (String.intercalate joiner
                (group0.map Ident.toStr)) ++ " AND EID(", ")"⟩
              " OR " i none with
          | none => rw [h1] at h; cases h
          | some r1 =>
            rw [h1] at h
            simp only [] at h
            cases h2 : stacked_query run f ((groupeids.drop
                (groupeids.length / 2)).map Ident.str) r1.acc
                ⟨query.subst (String.intercalate joiner
                  (group0.map Ident.toStr)) ++ " AND EID(", ")"⟩
                " OR " r1.i none with
            | none => rw [h2] at h; cases h
            | some r2 =>
              rw [h2] at h
              simp only [] at h
              obtain rfl := (Option.some.inj h).symm
              have hb1 := (ih _ _ _ _ _ _ _ h1).2 rfl
              have hb2 := (ih _ _ _ _ _ _ _ h2).2 rfl
              refine ⟨?_, fun _ => ?_⟩ <;> dsimp only <;> omega
        · rw [if_neg hmark] at h
          obtain rfl := (Option.some.inj h).symm
          exact ⟨Nat.le_refl _, fun _ => rfl⟩

/-- Witness for C10 at a bisecting run with a truthy total whose leaves
all succeed. -/
theorem C10_counter_monotone_witness :
    3 ≤ (SQRes.i ⟨some ([] ++ [5] ++ [5]), [] ++ [5] ++ [5], 5,
      [(4, 9), (5, 9)]⟩ : Nat) := by
  have h := C10_counter_monotone
    (fun q => if q = "AU-ID(1 OR 2)"
      then (Except.error ScopusErr.queryError :
        Except ScopusErr (List Nat))
      else Except.ok [5]) 2
    [Ident.int 1, Ident.int 2] [] ⟨"AU-ID(", ")"⟩ " OR " 3 (some 9)
    ⟨some ([] ++ [5] ++ [5]), [] ++ [5] ++ [5], 5, [(4, 9), (5, 9)]⟩
    (by decide)
  exact h.1

/-! ## The query wrapper (sosia/utils/queries.py, lines 93 to 136)

query performs one search through the scopus library, catches the three
decode-class exception types, retries once with refresh forced on, and
on a repeated decode-class failure falls through the except clause's
pass statement, returning None.  The two searchers are oracle parameters
taking the query string and the refresh flag.
-/

/-- Python exception values relevant to query: the three classes caught
by its except clause, and a generic class for everything else (the bare
Exception raised for an unknown query type, scopus errors, and so on),
which that clause does not catch. -/
inductive PyErr where
  | keyError
  | unicodeDecodeError
  | valueError
  | exc (msg : String)
deriving DecidableEq

/-- Membership in the caught tuple KeyError, UnicodeDecodeError,
ValueError. -/
def isDecodeClass : PyErr → Bool
  | .keyError => true
  | .unicodeDecodeError => true
  | .valueError => true
  | .exc _ => false

/-- A document record as returned by ScopusSearch: only the coverDate
field is inspected by the code under verification. -/
structure Doc where
  coverDate : String
deriving DecidableEq

/-- Modelled: Python int(s) succeeds exactly when s, after stripping
surrounding whitespace, is an optional sign followed by one or more
decimal digits (underscore digit-grouping is not modelled; no claim
depends on the exact grammar, only on whether parsing fails). -/
def pyIntParses (s : String) : Bool :=
  let t := s.trim
  let core := if t.startsWith "+" || t.startsWith "-" then t.drop 1
    else t
  core.length > 0 && core.data.all Char.isDigit

/-- Result of a successful query call: author records for the author
query type (their payload is irrelevant here and stays abstract), or
document records. -/
inductive QRes (A : Type) where
  | authors (l : List A)
  | docs (l : List Doc)
deriving DecidableEq

/-- The try block of query: run the search for the given query type,
checking for the docs type that every result's publication year (the
first four characters of coverDate) parses as an integer, and raising
the bare Exception for an unknown query type. -/
def query_attempt {A : Type}
    (authorSearch : String → Bool → Except PyErr (List A))
    (scopusSearch : String → Bool → Except PyErr (List Doc))
    (q_type q : String) (refresh : Bool) : Except PyErr (QRes A) :=
  if q_type == "author" then
    match authorSearch q refresh with
    | .error e => .error e
    | .ok res => .ok (.authors res)
  else if q_type == "docs" then
    match scopusSearch q refresh with
    | .error e => .error e
    | .ok res =>
      if res.all (fun pub => pyIntParses (pub.coverDate.take 4)) then
        .ok (.docs res)
      else
        .error .valueError
  else
    .error (.exc "Unknown value provided.")

/-- Shallow embedding of query (sosia/utils/queries.py, lines 93 to
136).  The returned value distinguishes a raised exception (error), a
normal return of search results (ok some), and the None that the code
returns when a repeated decode-class failure is swallowed by the pass
statement (ok none).  On a first-try decode-class failure the code calls
itself with refresh set to True and first_try set to False. -/
def query {A : Type}
    (authorSearch : String → Bool → Except PyErr (List A))
    (scopusSearch : String → Bool → Except PyErr (List Doc))
    (q_type q : String) (refresh : Bool) (first_try : Bool) :
    Except PyErr (Option (QRes A)) :=
  match query_attempt authorSearch scopusSearch q_type q refresh with
  | .ok res => .ok (some res)
  | .error e =>
    if isDecodeClass e then
      if h : first_try = true then
        query authorSearch scopusSearch q_type q true false
      else
        .ok none
    else
      .error e
termination_by (if first_try then 1 else 0)
decreasing_by simp [h]

/-- C7: for every call to query with a query type other than author or
docs, the bare Exception is raised immediately and propagated to the
caller without any retry, regardless of the first_try flag and of what
the search adapters would do. -/
theorem C7_unknown_type_raises {A : Type}
    (authorSearch : String → Bool → Except PyErr (List A))
    (scopusSearch : String → Bool → Except PyErr (List Doc))
    (q_type q : String) (refresh first_try : Bool)
    (ha : q_type ≠ "author") (hd : q_type ≠ "docs") :
    query authorSearch scopusSearch q_type q refresh first_try =
      .error (.exc "Unknown value provided.") := by
  have hba : (q_type == "author") = false := beq_false_of_ne ha
  have hbd : (q_type == "docs") = false := beq_false_of_ne hd
  rw [query]
  simp [query_attempt, hba, hbd, isDecodeClass]

/-- Witness for C7 at a concrete invalid query type. -/
theorem C7_unknown_type_raises_witness :
    query (fun _ _ => (Except.ok ([] : List Nat)))
        (fun _ _ => Except.ok []) "sources" "SOURCE-ID(1)" false true =
      .error (.exc "Unknown value provided.") :=
  C7_unknown_type_raises _ _ "sources" "SOURCE-ID(1)" false true
    (by decide) (by decide)

/-- C5 (amended): for every call to query, a decode-class failure
(KeyError, UnicodeDecodeError, or ValueError, the latter including a docs
result whose publication year does not parse as an integer) on the first
try causes exactly one silent re-attempt of the same query with the
refresh flag forced on; if the re-attempt fails with a decode-class error
again, the error is suppressed by the pass statement and the call returns
None instead of propagating. -/
theorem C5_decode_retry_then_none {A : Type}
    (authorSearch : String → Bool → Except PyErr (List A))
    (scopusSearch : String → Bool → Except PyErr (List Doc))
    (q_type q : String) (refresh : Bool) (e1 : PyErr)
    (h1 : query_attempt authorSearch scopusSearch q_type q refresh =
      .error e1)
    (hd1 : isDecodeClass e1 = true) :
    query authorSearch scopusSearch q_type q refresh true =
      query authorSearch scopusSearch q_type q true false ∧
    (∀ e2, query_attempt authorSearch scopusSearch q_type q true =
        .error e2 → isDecodeClass e2 = true →
      query authorSearch scopusSearch q_type q refresh true =
        .ok none) := by
  have hstep : query authorSearch scopusSearch q_type q refresh true =
      query authorSearch scopusSearch q_type q true false := by
    rw [query]
    simp [h1, hd1]
  refine ⟨hstep, fun e2 h2 hd2 => ?_⟩
  rw [hstep, query]
  simp [h2, hd2]

/-- Witness for C5 at adapters whose author search always raises
KeyError. -/
theorem C5_decode_retry_then_none_witness :
    query (fun _ _ => (Except.error PyErr.keyError :
        Except PyErr (List Nat)))
      (fun _ _ => Except.ok []) "author" "AU-ID(1)" false true =
    query (fun _ _ => (Except.error PyErr.keyError :
        Except PyErr (List Nat)))
      (fun _ _ => Except.ok []) "author" "AU-ID(1)" true false :=
  (C5_decode_retry_then_none
    (fun _ _ => (Except.error PyErr.keyError : Except PyErr (List Nat)))
    (fun _ _ => Except.ok []) "author" "AU-ID(1)" false
    PyErr.keyError rfl rfl).1

/-- Counterexample to C5 as stated: with an author search that raises
KeyError on both attempts, the call returns None (ok none) rather than
surfacing the decode-class error to the caller, because the second
failure hits the pass statement. -/
theorem C5_counterexample_error_swallowed :
    query (fun _ _ => (Except.error PyErr.keyError :
        Except PyErr (List Nat)))
      (fun _ _ => Except.ok []) "author" "AU-ID(1)" false true =
      .ok none ∧
    (Except.ok none : Except PyErr (Option (QRes Nat))) ≠
      .error PyErr.keyError := by
  constructor
  · rw [query]
    simp only [query_attempt, isDecodeClass]
    rw [query]
    simp [query_attempt, isDecodeClass]
  · simp

/-! ## Key partitioner (sosia/cache, modelled from the specification)

The partitioner functions authors_in_cache, author_year_in_cache and
sources_in_cache are exercised by sosia/cache/tests/test_search.py but
their implementation is not among the sources at hand, so the generic
algorithm of specification section 4.2 is modelled from the
specification's words.
-/

/-- Modelled from the spec: deduplicate input keys while preserving
first-seen order (section 4.2, step one of the key partitioner). -/
def dedupKeep {K : Type} [DecidableEq K] : List K → List K
  | [] => []
  | k :: ks => k :: dedupKeep (ks.filter (fun x => decide (x ≠ k)))
termination_by l => l.length
decreasing_by
  simp only [List.length_cons]
  exact Nat.lt_succ_of_le (List.length_filter_le _ _)

/-- The two outputs of the key partitioner. -/
structure Partition (K : Type) where
  incache : List K
  tosearch : List K
deriving DecidableEq

/-- Modelled from the spec: the generic key partitioner of section 4.2.
Given the key set present in the cache store (the result of the store
lookup) and a requested ordered collection of composite keys, it
deduplicates the request preserving first-seen order and splits it into
the keys found in the store and the residual keys to search, in order. -/
def keys_in_cache {K : Type} [DecidableEq K] (store : List K)
    (request : List K) : Partition K :=
  let d := dedupKeep request
  ⟨d.filter (fun k => decide (k ∈ store)),
   d.filter (fun k => decide (k ∉ store))⟩

theorem mem_dedupKeep {K : Type} [DecidableEq K] :
    ∀ (l : List K) (x : K), x ∈ dedupKeep l ↔ x ∈ l := by
  intro l
  induction l using dedupKeep.induct with
  | case1 => intro x; simp [dedupKeep]
  | case2 k ks ih =>
    intro x
    rw [dedupKeep]
    simp only [List.mem_cons, ih, List.mem_filter, decide_eq_true_eq]
    constructor
    · rintro (rfl | ⟨hx, _⟩)
      · exact Or.inl rfl
      · exact Or.inr hx
    · rintro (rfl | hx)
      · exact Or.inl rfl
      · by_cases hk : x = k
        · exact Or.inl hk
        · exact Or.inr ⟨hx, hk⟩

theorem nodup_dedupKeep {K : Type} [DecidableEq K] :
    ∀ l : List K, (dedupKeep l).Nodup := by
  intro l
  induction l using dedupKeep.induct with
  | case1 => simp [dedupKeep]
  | case2 k ks ih =>
    rw [dedupKeep]
    refine List.nodup_cons.mpr ⟨fun hk => ?_, ih⟩
    have := (mem_dedupKeep _ _).mp hk
    simp at this

theorem filter_dedupKeep {K : Type} [DecidableEq K] (p : K → Bool) :
    ∀ l : List K, (dedupKeep l).filter p = dedupKeep (l.filter p) := by
  intro l
  induction l using dedupKeep.induct with
  | case1 => simp [dedupKeep]
  | case2 k ks ih =>
    rw [dedupKeep, List.filter_cons]
    by_cases hp : p k = true
    · rw [if_pos hp, ih, List.filter_cons, if_pos hp, dedupKeep]
      congr 1
      congr 1
      rw [List.filter_filter, List.filter_filter]
      exact List.filter_congr (fun x _ => Bool.and_comm _ _)
    · have hp' : p k = false := Bool.eq_false_iff.mpr hp
      rw [if_neg hp, ih, List.filter_cons, if_neg hp]
      congr 1
      rw [List.filter_filter]
      exact List.filter_congr (fun x _ => by
        by_cases hx : x = k <;> simp [hx, hp'])

/-- C6: partition completeness of the key partitioner (spec-modelled):
for every requested key set, a key is in exactly one of the two outputs
precisely when it is requested, the two outputs are disjoint, the
tosearch output lists the non-cached requests in order of first
occurrence, and duplicate requested keys collapse to a single entry in
each output. -/
theorem C6_partition_completeness {K : Type} [DecidableEq K]
    (store request : List K) :
    (∀ k, (k ∈ (keys_in_cache store request).incache ∨
        k ∈ (keys_in_cache store request).tosearch) ↔ k ∈ request) ∧
    (∀ k, ¬(k ∈ (keys_in_cache store request).incache ∧
        k ∈ (keys_in_cache store request).tosearch)) ∧
    (keys_in_cache store request).tosearch =
      dedupKeep (request.filter (fun k => decide (k ∉ store))) ∧
    (keys_in_cache store request).incache.Nodup ∧
    (keys_in_cache store request).tosearch.Nodup := by
  refine ⟨fun k => ?_, fun k hk => ?_, ?_, ?_, ?_⟩
  · simp only [keys_in_cache, List.mem_filter, decide_eq_true_eq,
      mem_dedupKeep]
    constructor
    · rintro (⟨hk, _⟩ | ⟨hk, _⟩) <;> exact hk
    · intro hk
      by_cases hs : k ∈ store
      · exact Or.inl ⟨hk, hs⟩
      · exact Or.inr ⟨hk, hs⟩
  · obtain ⟨h1, h2⟩ := hk
    simp only [keys_in_cache, List.mem_filter, decide_eq_true_eq] at h1 h2
    exact h2.2 h1.2
  · simp only [keys_in_cache]
    exact filter_dedupKeep _ request
  · exact (nodup_dedupKeep request).filter _
  · exact (nodup_dedupKeep request).filter _

/-- Witness for C6 at the scenario of the specification: the store holds
one author key and two keys are requested. -/
theorem C6_partition_completeness_witness :
    ¬((53164702100 : Nat) ∈
        (keys_in_cache [53164702100] [53164702100, 57197093438]).incache ∧
      (53164702100 : Nat) ∈
        (keys_in_cache [53164702100] [53164702100, 57197093438]).tosearch) :=
  (C6_partition_completeness [53164702100]
    [53164702100, 57197093438]).2.1 53164702100

/-! ## Cache table creation (sosia/establishing/database.py, lines 26
to 50)

create_cache loops over the CACHE_TABLES dictionary, and for each table
executes DROP TABLE IF EXISTS when drop is set, followed by CREATE TABLE
IF NOT EXISTS.  The sqlite database file is modelled as an association
of table names to table states in creation order; the connection and the
config-file resolution of the cache file path are abstracted away.  The
table list is a parameter because the constants module defining
CACHE_TABLES is not among the sources at hand; Python dictionary keys
are unique, which appears below as a Nodup hypothesis on the names.
-/

/-- Declaration of one cache table: its column name and type pairs and
its primary key columns, as listed in CACHE_TABLES. -/
structure TableSpec where
  columns : List (String × String)
  primary : List String
deriving DecidableEq

/-- State of one sqlite table: the declaration it was created with and
its rows. -/
structure Table where
  spec : TableSpec
  rows : List (List String)
deriving DecidableEq

/-- State of the sqlite database: tables by name, in creation order. -/
abbrev DB : Type := List (String × Table)

/-- Name lookup in the database. -/
def lookupTable (name : String) : DB → Option Table
  | [] => none
  | (n, t) :: rest => if name = n then some t else lookupTable name rest

/-- Statement DROP TABLE IF EXISTS name. -/
def dropTable (name : String) (db : DB) : DB :=
  db.filter (fun nt => decide (nt.1 ≠ name))

/-- Statement CREATE TABLE IF NOT EXISTS name: a no-op when a table of
that name exists, otherwise appends a fresh empty table with the given
declaration. -/
def createTableIfAbsent (name : String) (spec : TableSpec) (db : DB) :
    DB :=
  match lookupTable name db with
  | some _ => db
  | none => db ++ [(name, ⟨spec, []⟩)]

/-- Shallow embedding of create_cache (database.py lines 26 to 50): for
each listed table, drop it when the drop flag is set, then create it if
absent. -/
def create_cache : List (String × TableSpec) → Bool → DB → DB
  | [], _, db => db
  | (name, spec) :: rest, drop, db =>
    let db1 := if drop then dropTable name db else db
    create_cache rest drop (createTableIfAbsent name spec db1)

theorem lookupTable_append (name : String) (db l : DB) :
    lookupTable name (db ++ l) =
      match lookupTable name db with
      | some t => some t
      | none => lookupTable name l := by
  induction db with
  | nil => simp [lookupTable]
  | cons nt rest ih =>
    obtain ⟨n, t⟩ := nt
    by_cases h : name = n
    · simp [lookupTable, h]
    · simp [lookupTable, h, ih]

theorem lookupTable_dropTable (name m : String) (db : DB) :
    lookupTable name (dropTable m db) =
      if name = m then none else lookupTable name db := by
  induction db with
  | nil =>
    by_cases h : name = m <;> simp [lookupTable, dropTable, h]
  | cons nt rest ih =>
    obtain ⟨n, t⟩ := nt
    unfold dropTable at ih ⊢
    rw [List.filter_cons]
    by_cases hnm : n = m
    · rw [if_neg (by simp [hnm]), ih]
      by_cases h : name = m
      · rw [if_pos h, if_pos h]
      · rw [if_neg h, if_neg h]
        have hne : name ≠ n := fun hh => h (hh.trans hnm)
        simp [lookupTable, hne]
    · rw [if_pos (by simp [hnm])]
      by_cases h : name = n
      · subst h
        simp [lookupTable, hnm]
      · simp only [lookupTable, if_neg h]
        exact ih

theorem lookupTable_create_preserve (name m : String) (s : TableSpec)
    (db : DB) (t : Table) (H : lookupTable name db = some t) :
    lookupTable name (createTableIfAbsent m s db) = some t := by
  unfold createTableIfAbsent
  cases hm : lookupTable m db with
  | some _ => exact H
  | none => rw [lookupTable_append, H]

theorem lookupTable_create_self (name : String) (s : TableSpec)
    (db : DB) (H : lookupTable name db = none) :
    lookupTable name (createTableIfAbsent name s db) =
      some ⟨s, []⟩ := by
  unfold createTableIfAbsent
  rw [H, lookupTable_append, H]
  simp [lookupTable]

theorem lookupTable_create_ne (name m : String) (s : TableSpec)
    (db : DB) (H : name ≠ m) :
    lookupTable name (createTableIfAbsent m s db) =
      lookupTable name db := by
  unfold createTableIfAbsent
  cases hm : lookupTable m db with
  | some _ => rfl
  | none =>
    rw [lookupTable_append]
    cases hn : lookupTable name db with
    | some t => rfl
    | none => simp [lookupTable, H]

theorem create_cache_preserve (ts : List (String × TableSpec)) :
    ∀ (db : DB) (name : String) (t : Table),
      lookupTable name db = some t →
      lookupTable name (create_cache ts false db) = some t := by
  induction ts with
  | nil => intro db name t H; exact H
  | cons p rest ih =>
    obtain ⟨n, s⟩ := p
    intro db name t H
    have hif : (if false = true then dropTable n db else db) = db := rfl
    simp only [create_cache]
    rw [hif]
    exact ih _ name t (lookupTable_create_preserve name n s db t H)

theorem create_cache_present (ts : List (String × TableSpec)) :
    ∀ (db : DB) (p : String × TableSpec), p ∈ ts →
      (lookupTable p.1 (create_cache ts false db)).isSome = true := by
  induction ts with
  | nil => intro db p hp; cases hp
  | cons q rest ih =>
    obtain ⟨n, s⟩ := q
    intro db p hp
    have hif : (if false = true then dropTable n db else db) = db := rfl
    simp only [create_cache]
    rw [hif]
    rcases List.mem_cons.mp hp with heq | hp
    · subst heq
      have h1 : (lookupTable n (createTableIfAbsent n s db)).isSome =
          true := by
        cases hn : lookupTable n db with
        | some t =>
          rw [lookupTable_create_preserve n n s db t hn]; rfl
        | none => rw [lookupTable_create_self n s db hn]; rfl
      obtain ⟨t, ht⟩ := Option.isSome_iff_exists.mp h1
      rw [create_cache_preserve rest (createTableIfAbsent n s db) n t ht]
      rfl
    · exact ih _ p hp

theorem create_cache_noop (ts : List (String × TableSpec)) :
    ∀ db : DB, (∀ p ∈ ts, (lookupTable p.1 db).isSome = true) →
      create_cache ts false db = db := by
  induction ts with
  | nil => intro db _; rfl
  | cons q rest ih =>
    obtain ⟨n, s⟩ := q
    intro db H
    have hn := H (n, s) (List.mem_cons_self _ _)
    obtain ⟨t, ht⟩ := Option.isSome_iff_exists.mp hn
    have heq : createTableIfAbsent n s db = db := by
      unfold createTableIfAbsent
      rw [ht]
    have hif : (if false = true then dropTable n db else db) = db := rfl
    simp only [create_cache]
    rw [hif, heq]
    exact ih db (fun p hp => H p (List.mem_cons_of_mem _ hp))

theorem create_cache_notlisted (ts : List (String × TableSpec)) :
    ∀ (db : DB) (name : String) (drop : Bool),
      name ∉ ts.map Prod.fst →
      lookupTable name (create_cache ts drop db) =
        lookupTable name db := by
  induction ts with
  | nil => intro db name drop _; rfl
  | cons q rest ih =>
    obtain ⟨n, s⟩ := q
    intro db name drop H
    simp only [List.map_cons, List.mem_cons] at H
    push_neg at H
    obtain ⟨hne, hrest⟩ := H
    cases drop with
    | false =>
      have hif : (if false = true then dropTable n db else db) = db :=
        rfl
      simp only [create_cache]
      rw [hif, ih _ name false hrest,
        lookupTable_create_ne name n s _ hne]
    | true =>
      simp only [create_cache, if_true]
      rw [ih _ name true hrest,
        lookupTable_create_ne name n s _ hne,
        lookupTable_dropTable, if_neg hne]

theorem create_cache_dropped (ts : List (String × TableSpec)) :
    ∀ (db : DB) (name : String) (s : TableSpec),
      (ts.map Prod.fst).Nodup → (name, s) ∈ ts →
      lookupTable name (create_cache ts true db) = some ⟨s, []⟩ := by
  induction ts with
  | nil => intro db name s _ hm; cases hm
  | cons q rest ih =>
    obtain ⟨n, s0⟩ := q
    intro db name s hnd hm
    rw [List.map_cons] at hnd
    obtain ⟨hnot, hnd2⟩ := List.nodup_cons.mp hnd
    simp only [create_cache, if_true]
    rcases List.mem_cons.mp hm with heq | hm
    · injection heq with h1 h2
      subst h1
      subst h2
      have hdropped : lookupTable name (dropTable name db) = none := by
        rw [lookupTable_dropTable, if_pos rfl]
      have hcreated := lookupTable_create_self name s _ hdropped
      rw [create_cache_notlisted rest _ name true hnot, hcreated]
    · exact ih _ name s hnd2 hm


/-- C8: create_cache is idempotent and safe to call repeatedly.  With
the drop flag off it creates every listed cache table only if absent,
leaving existing tables and their rows untouched, so calling it twice
equals calling it once; with the drop flag on it unconditionally drops
every listed table and recreates it, so each listed table ends as a
fresh empty table with its declared schema (the names are distinct,
being Python dictionary keys). -/
theorem C8_create_cache_idempotent (ts : List (String × TableSpec))
    (db : DB) :
    create_cache ts false (create_cache ts false db) =
      create_cache ts false db ∧
    (∀ name t, lookupTable name db = some t →
      lookupTable name (create_cache ts false db) = some t) ∧
    (∀ p ∈ ts,
      (lookupTable p.1 (create_cache ts false db)).isSome = true) ∧
    ((ts.map Prod.fst).Nodup → ∀ name s, (name, s) ∈ ts →
      lookupTable name (create_cache ts true db) = some ⟨s, []⟩) :=
  ⟨create_cache_noop ts (create_cache ts false db)
      (fun p hp => create_cache_present ts db p hp),
   fun name t H => create_cache_preserve ts db name t H,
   fun p hp => create_cache_present ts db p hp,
   fun hnd name s hm => create_cache_dropped ts db name s hnd hm⟩

/-- Witness for C8 at a two-table list and a database already holding
one of the tables with a row. -/
theorem C8_create_cache_idempotent_witness :
    lookupTable "authors"
        (create_cache
          [("authors", ⟨[("auth_id", "int")], ["auth_id"]⟩),
           ("author_year", ⟨[("auth_id", "int"), ("year", "int")],
             ["auth_id", "year"]⟩)] false
          [("authors", ⟨⟨[("auth_id", "int")], ["auth_id"]⟩,
            [["42"]]⟩)]) =
      some ⟨⟨[("auth_id", "int")], ["auth_id"]⟩, [["42"]]⟩ ∧
    lookupTable "author_year"
        (create_cache
          [("authors", ⟨[("auth_id", "int")], ["auth_id"]⟩),
           ("author_year", ⟨[("auth_id", "int"), ("year", "int")],
             ["auth_id", "year"]⟩)] true
          [("authors", ⟨⟨[("auth_id", "int")], ["auth_id"]⟩,
            [["42"]]⟩)]) =
      some ⟨⟨[("auth_id", "int"), ("year", "int")],
        ["auth_id", "year"]⟩, []⟩ := by
  constructor
  · exact (C8_create_cache_idempotent
      [("authors", ⟨[("auth_id", "int")], ["auth_id"]⟩),
       ("author_year", ⟨[("auth_id", "int"), ("year", "int")],
         ["auth_id", "year"]⟩)]
      [("authors", ⟨⟨[("auth_id", "int")], ["auth_id"]⟩,
        [["42"]]⟩)]).2.1 "authors"
      ⟨⟨[("auth_id", "int")], ["auth_id"]⟩, [["42"]]⟩ (by decide)
  · exact (C8_create_cache_idempotent
      [("authors", ⟨[("auth_id", "int")], ["auth_id"]⟩),
       ("author_year", ⟨[("auth_id", "int"), ("year", "int")],
         ["auth_id", "year"]⟩)]
      [("authors", ⟨⟨[("auth_id", "int")], ["auth_id"]⟩,
        [["42"]]⟩)]).2.2.2 (by decide) "author_year"
      ⟨[("auth_id", "int"), ("year", "int")], ["auth_id", "year"]⟩
      (by decide)

end Sosia
